import Mathlib

/-!
Verification of the PSP metrics engine in ide2py/psp.py.

The development shallowly embeds the non-GUI core of the module: the
`pretty_time` / `parse_time` duration formatting pair, the per-phase time
table (`PlanSummaryTable.count`) and the stopwatch tick handler
(`TimerHandler` with the interruption / automatic-stopwatch flags), the
defect recording log (`DefectListCtrl.AddItem` / `OnCheckItem`), the
line-provenance rebuild (`update_metadata`) and defect creation
(`NotifyDefect`).

Python strings are embedded as `List Char` (or `String` where only equality
matters), Python floats as exact rationals `ℚ`, Python ints as `ℤ`/`ℕ`,
Python `None` as `Option.none`, dictionaries as association lists in
insertion order, and raised exceptions as `Except` errors.  GUI-only side
effects (widget redraws, gauges, dialogs) are dropped; GUI state that the
engine reads back (the row count of the defect list, its `key_map`) is kept.
-/

/-- The ten decimal digit characters. -/
def DIGITS : List Char := ['0', '1', '2', '3', '4', '5', '6', '7', '8', '9']

/-- Character of a single decimal digit, used by the model of the %d format. -/
def digitChar (d : Nat) : Char :=
  if d = 0 then '0' else if d = 1 then '1' else if d = 2 then '2' else if d = 3 then '3'
  else if d = 4 then '4' else if d = 5 then '5' else if d = 6 then '6'
  else if d = 7 then '7' else if d = 8 then '8' else '9'

/-- Decimal rendering of a natural number: the model of Python %d applied to a
non-negative integral value. -/
def renderNat (n : Nat) : List Char :=
  if _h : n < 10 then [digitChar n]
  else renderNat (n / 10) ++ [digitChar (n % 10)]
decreasing_by
  exact Nat.div_lt_self (by omega) (by omega)

/-- Base-10 value of a list of digit characters. -/
def digitsVal (cs : List Char) : Nat :=
  cs.foldl (fun a c => 10 * a + (c.toNat - 48)) 0

/-- Model of Python str.strip: drop whitespace from both ends. -/
def pyStrip (cs : List Char) : List Char :=
  ((cs.dropWhile Char.isWhitespace).reverse.dropWhile Char.isWhitespace).reverse

/-- Model of Python str.lower. -/
def pyLower (cs : List Char) : List Char := cs.map Char.toLower

/-- Helper of `splitWs`: `cur` is the (reversed) word being accumulated. -/
def splitWsAux : List Char → List Char → List (List Char)
  | cur, [] => if cur = [] then [] else [cur.reverse]
  | cur, c :: cs =>
    if c.isWhitespace then
      if cur = [] then splitWsAux [] cs else cur.reverse :: splitWsAux [] cs
    else splitWsAux (c :: cur) cs

/-- Model of Python str.split() with no argument: split on runs of whitespace,
discarding empty words. -/
def splitWs (cs : List Char) : List (List Char) := splitWsAux [] cs

/-- Model of Python float() on an unsigned plain decimal string (integer part,
optional dot, fractional part); `none` models the ValueError raised on any
other input.  Exotic float syntax (exponents, inf/nan) is never produced nor
consumed by the embedded code and is not modelled. -/
def parseUnsigned (r : List Char) : Option ℚ :=
  let ip := r.takeWhile (fun c => c ≠ '.')
  let rest := r.dropWhile (fun c => c ≠ '.')
  if rest = [] then
    if ip ≠ [] ∧ ip.all Char.isDigit then some ((digitsVal ip : ℚ)) else none
  else
    let fp := rest.tail
    if (ip.all Char.isDigit ∧ fp.all Char.isDigit) ∧ (ip ≠ [] ∨ fp ≠ []) then
      some ((digitsVal ip : ℚ) + (digitsVal fp : ℚ) / (10 : ℚ) ^ fp.length)
    else none

/-- Model of Python float() including an optional leading sign. -/
def parseFloat (cs : List Char) : Option ℚ :=
  match cs with
  | [] => none
  | c :: t =>
    let sg : ℚ := if c = '-' then -1 else 1
    let r : List Char := if c = '-' ∨ c = '+' then t else c :: t
    (parseUnsigned r).map (fun v => sg * v)

/-- The unit-factor search loop of `parse_time`: the loop breaks on a matching
unit and otherwise falls through with the last pair (3600, h). -/
def unitFactor (u : List Char) : ℚ :=
  if u = ['s'] then 1 else if u = ['m'] then 60 else 3600

/-- Embedding of psp.parse_time: analyze user input, producing a time count in
seconds; `none` models a raised exception (float ValueError, or the unpacking
error when split() does not yield exactly two words). -/
def parse_time (input : List Char) : Option ℚ :=
  let s := pyLower (pyStrip input)
  if s = [] then some 0
  else
    let tu : Option (List Char × List Char) :=
      if ' ' ∈ s then
        match splitWs s with
        | [t, u] => some (t, u)
        | _ => none
      else
        match s.getLast? with
        | some c => if ¬ c.isDigit then some (s.dropLast, [c]) else some (s, [])
        | none => none
    match tu with
    | none => none
    | some (t, u) =>
      match parseFloat (t.map (fun c => if c = ',' then '.' else c)) with
      | some v => some (v * unitFactor u)
      | none => none

/-- Truncation toward zero: the model of Python int() on a float. -/
def ratTrunc (q : ℚ) : ℤ := if 0 ≤ q then ⌊q⌋ else ⌈q⌉

/-- Model of Python %d on an integral value. -/
def renderInt (n : ℤ) : List Char :=
  if n < 0 then '-' :: renderNat n.natAbs else renderNat n.toNat

/-- Two-digit zero-padded rendering of a value below 100. -/
def pad2 (k : Nat) : List Char := if k < 10 then '0' :: renderNat k else renderNat k

/-- Model of Python "%0.2f" on an exact rational (round to two decimals). -/
def renderFixed2 (q : ℚ) : List Char :=
  let r : ℤ := round (q * 100)
  (if r < 0 then ['-'] else []) ++ renderNat (r.natAbs / 100) ++ '.' :: pad2 (r.natAbs % 100)

/-- Embedding of psp.pretty_time: format a second count, choosing the first
unit among s, m, h whose threshold the count is below (falling through to
hours), printing a fraction only when the count is not a multiple of the
unit; None is formatted as the empty string. -/
def pretty_time (counter : Option ℚ) : List Char :=
  match counter with
  | none => []
  | some q =>
    let c : ℤ := ratTrunc q
    let fu : ℤ × List Char :=
      if (c : ℚ) < 60 * 1 then (1, ['s'])
      else if (c : ℚ) < 60 * 60 then (60, ['m'])
      else (3600, ['h'])
    if c % fu.1 ≠ 0 then renderFixed2 ((c : ℚ) / ((fu.1 : ℤ) : ℚ)) ++ ' ' :: fu.2
    else renderInt (ratTrunc ((c : ℚ) / ((fu.1 : ℤ) : ℚ))) ++ ' ' :: fu.2

/-- The display unit (in seconds) that `pretty_time` selects for a
non-negative whole second count. -/
def displayFactor (x : Nat) : Nat := if x < 60 then 1 else if x < 3600 then 60 else 3600


/-- Model of Python dict assignment on an insertion-ordered association list:
overwrite in place if the key exists, else append. -/
def dictInsert {α : Type} (m : List (Nat × α)) (k : Nat) (v : α) : List (Nat × α) :=
  match m with
  | [] => [(k, v)]
  | (k0, v0) :: t => if k0 = k then (k0, v) :: t else (k0, v0) :: dictInsert t k v

/-- Embedding of the metadata-rebuild loop of psp.update_metadata (the
new_metadata construction): for each alignment pair, a line only in `new`
gets the current phase, a line in both keeps the phase stored at its old
index, and a line only in `old` is dropped.  `old_md` is the old metadata in
line order (phase, text); `changes` is the diff alignment. -/
def rebuild_metadata (phase : String) (old_md : List (String × String))
    (new : List String) (changes : List (Option Nat × Option Nat)) :
    List (Nat × (String × String)) :=
  changes.foldl (fun md p =>
    match p.2 with
    | none => md
    | some n =>
      match p.1 with
      | none => dictInsert md n (phase, new.getD n "")
      | some o => dictInsert md n ((old_md.getD o ("", "")).1, new.getD n "")) []

/-- The new-side indices reported by an alignment. -/
def alignNew (changes : List (Option Nat × Option Nat)) : List Nat :=
  changes.filterMap Prod.snd

/-- The old-side indices reported by an alignment. -/
def alignOld (changes : List (Option Nat × Option Nat)) : List Nat :=
  changes.filterMap Prod.fst

/-- Modelled from the spec: a matched pair of the DiffEngine alignment must
relate equal lines. -/
def matchOk (old new : List String) (p : Option Nat × Option Nat) : Bool :=
  match p with
  | (some o, some n) => old.getD o "" == new.getD n ""
  | _ => true

/-- Modelled from the spec: the contract of DiffEngine.align
(diffutil.track_lines_changes, whose source is not part of the embedded
module): an ordered sequence of (old_index_or_none, new_index_or_none) pairs
in which every old index and every new index occurs exactly once, and matched
pairs carry equal text. -/
def AlignSpec (old new : List String) (changes : List (Option Nat × Option Nat)) : Prop :=
  (alignNew changes).Perm (List.range new.length) ∧
  (alignOld changes).Perm (List.range old.length) ∧
  ∀ p ∈ changes, matchOk old new p = true

/-- The metadata entry that one alignment pair contributes. -/
def entryOfChange (phase : String) (old_md : List (String × String))
    (new : List String) (p : Option Nat × Option Nat) :
    Option (Nat × (String × String)) :=
  match p.2 with
  | none => none
  | some n =>
    match p.1 with
    | none => some (n, (phase, new.getD n ""))
    | some o => some (n, ((old_md.getD o ("", "")).1, new.getD n ""))

/-- A defect record of the defect recording log.  Fields that Python may hold
as None are Options; `checked` is an Option because the "checked" key may be
absent from a freshly built item dictionary; `dtype` is the "type" field. -/
structure DefectItem where
  number : Option Int
  summary : String
  description : String
  date : String
  dtype : String
  inject_phase : String
  remove_phase : String
  fix_time : Option ℚ
  fix_defect : String
  filename : Option String
  lineno : Option Nat
  offset : Option Nat
  checked : Option Bool
  uuid : Option String
deriving DecidableEq

/-- State of DefectListCtrl that the engine reads back: the defect store
(None when no task is selected), the GUI key_map (row position to store key),
the number of GUI rows, and the event log as (event, uuid) pairs. -/
structure DefectListState where
  data : Option (List (String × DefectItem))
  key_map : List (Nat × String)
  rows : Nat
  log : List (String × String)
deriving DecidableEq

/-- The duplicate test of DefectListCtrl.AddItem: equality of summary, date,
filename, lineno and offset. -/
def dupPred (item : DefectItem) (kd : String × DefectItem) : Bool :=
  kd.2.summary == item.summary && kd.2.date == item.date &&
  kd.2.filename == item.filename && kd.2.lineno == item.lineno &&
  kd.2.offset == item.offset

/-- Python max() over a non-empty list (the numbers list of AddItem). -/
def maxOf (l : List Int) : Int :=
  match l with
  | [] => 0
  | x :: xs => xs.foldl max x

/-- Embedding of DefectListCtrl.AddItem.  `fresh` models the uuid.uuid1()
value generated for a new record.  Returns the new state, the (possibly
mutated) item, and the Python return value, which is always None: every
return statement of the source is bare.  When the store is None the call
returns immediately; a duplicate (per `dupPred`, with no explicit key) only
logs a dup_defect event with the existing record's uuid; otherwise the item
gets a default checked flag, a GUI row, a number (max existing + 1, or 1 on
an empty store) if absent, and - when no key was supplied - a fresh uuid,
a store entry, a sync and a new_defect log event.  The final ToggleItem call
of the source fires OnCheckItem with a flag equal to the stored one, a no-op
on the data, and is therefore not modelled. -/
def AddItem (fresh : String) (st : DefectListState) (item : DefectItem)
    (key0 : Option String) : DefectListState × DefectItem × Option String :=
  match st.data with
  | none => (st, item, none)
  | some data =>
    match (if key0 = none then data.find? (dupPred item) else none) with
    | some kd =>
      ({ st with log := st.log ++ [("dup_defect", kd.2.uuid.getD "")] }, item, none)
    | none =>
      let item1 := match item.checked with
        | none => { item with checked := some false }
        | some _ => item
      let index := st.rows
      let rows1 := st.rows + 1
      let item2 := match item1.number with
        | none =>
          if data ≠ [] then
            { item1 with number := some (maxOf (data.map (fun kd => kd.2.number.getD 0)) + 1) }
          else { item1 with number := some 1 }
        | some _ => item1
      match key0 with
      | none =>
        let key := fresh
        let item3 := { item2 with uuid := some key }
        ({ st with
            data := some (data ++ [(key, item3)]),
            rows := rows1,
            log := st.log ++ [("new_defect", key)],
            key_map := st.key_map ++ [(index, key)] }, item3, none)
      | some k =>
        ({ st with rows := rows1, key_map := st.key_map ++ [(index, k)] }, item2, none)

/-- Embedding of DefectListCtrl.OnCheckItem on the looked-up item: `phase` is
the caller's GetPSPPhase() value and `key` the item's store key (used in the
log event).  Nothing happens when the stored checked flag already equals the
requested one; otherwise wontfix clears fix_time, a transition to checked
sets remove_phase to `phase` only when it is empty, a checked/unchecked
event is logged and the flag is stored. -/
def OnCheckItem (phase : String) (key : String) (item : DefectItem)
    (flag wontfix : Bool) : DefectItem × List (String × String) :=
  if item.checked = some flag then (item, [])
  else
    let itemA := if wontfix then { item with fix_time := none } else item
    let pr : DefectItem × String :=
      if flag then
        (if itemA.remove_phase = "" then { itemA with remove_phase := phase } else itemA,
          "checked")
      else (itemA, "unchecked")
    ({ pr.1 with checked := some flag }, [(pr.2 ++ "_defect", key)])

/-- A concrete stored defect used by witnesses. -/
def sampleStored : DefectItem :=
  { number := some 1, summary := "s", description := "", date := "2026-10-12",
    dtype := "20", inject_phase := "code", remove_phase := "", fix_time := some 0,
    fix_defect := "", filename := some "a.py", lineno := some 10, offset := some 0,
    checked := some false, uuid := some "u1" }

/-- A concrete incoming item agreeing with `sampleStored` on the duplicate
key (summary, date, filename, lineno, offset). -/
def sampleNew : DefectItem :=
  { sampleStored with number := none, uuid := none, checked := none }

/-- A concrete one-defect store state. -/
def sampleSt : DefectListState :=
  { data := some [("u1", sampleStored)], key_map := [], rows := 1, log := [] }

/-- A concrete state with no task selected (store is None). -/
def sampleEmptySt : DefectListState :=
  { data := none, key_map := [], rows := 0, log := [] }

/-- The per-phase counter that one tick increments (the key_time chosen by
PlanSummaryTable.count; plan is read but never incremented by a tick). -/
inductive TKey where
  | actual
  | interruption
  | off_task
deriving DecidableEq

/-- One row of the plan summary table (missing keys behave as 0 in the
source, so the fields are total). -/
structure TimeRow where
  plan : ℚ
  actual : ℚ
  interruption : ℚ
  off_task : ℚ
deriving DecidableEq

/-- The row read for a phase that has no entry yet. -/
def TimeRow.zero : TimeRow := ⟨0, 0, 0, 0⟩

/-- Increment one counter of a row by 1 (the setdefault-and-assign of
PlanSummaryTable.count). -/
def bumpRow (r : TimeRow) : TKey → TimeRow
  | TKey.actual => { r with actual := r.actual + 1 }
  | TKey.interruption => { r with interruption := r.interruption + 1 }
  | TKey.off_task => { r with off_task := r.off_task + 1 }

/-- Python dict assignment for the phase table: replace in place or append. -/
def assocSet (l : List (String × TimeRow)) (p : String) (r : TimeRow) :
    List (String × TimeRow) :=
  match l with
  | [] => [(p, r)]
  | (q, s) :: t => if q = p then (p, r) :: t else (q, s) :: assocSet t p r

/-- Python truthiness of the interruption accumulator (None or an int). -/
def intTruthy : Option Int → Bool
  | none => false
  | some k => k != 0

/-- State of the PSPMixin stopwatch: the interruption accumulator
(psp_interruption), the automatic flag, the wx.Timer running flag, task
presence and suspension, the `executing` flag that also counts as activity,
the current phase (GetPSPPhase), the plan summary data (None when no task is
loaded), and counters modelling the two further tick sinks -
tick_task_context calls and DefectListCtrl.count calls - plus the event
log. -/
structure PspState where
  psp_interruption : Option Int
  psp_automatic_stopwatch : Bool
  timer_running : Bool
  task_id : Bool
  task_suspended : Bool
  executing : Bool
  phase : String
  times : Option (List (String × TimeRow))
  defect_fix_ticks : Nat
  task_ticks : Nat
  log : List String
deriving DecidableEq

/-- Embedding of PlanSummaryTable.count: when data is loaded, pick off_task
if the probe is inactive, else interruption if the (truthy) accumulator is
counting, else actual; increment that key of the phase row and return the
updated table together with the row (None models the implicit None returned
when no data is loaded). -/
def tableCount (data : Option (List (String × TimeRow))) (phase : String)
    (interruption : Option Int) (active : Bool) :
    Option (List (String × TimeRow)) × Option TimeRow :=
  match data with
  | none => (none, none)
  | some tbl =>
    let key : TKey :=
      if !active then TKey.off_task
      else if intTruthy interruption then TKey.interruption
      else TKey.actual
    let row1 := bumpRow ((tbl.lookup phase).getD TimeRow.zero) key
    (some (assocSet tbl phase row1), some row1)

/-- Embedding of PSPMixin.TimerHandler, one 1-second tick: increment the
interruption accumulator if interrupted; compute activity as the IDE-active
probe or the executing flag; tick the task context when a task is loaded,
active and not interrupted; then, when a phase is selected, a task is loaded
and not suspended, feed the plan summary table, and - unless interrupted -
tick the selected defect's fix time (gauge drawing is GUI-only and
dropped). -/
def TimerHandler (st : PspState) (ide_active : Bool) : PspState :=
  let st1 := match st.psp_interruption with
    | some k => { st with psp_interruption := some (k + 1) }
    | none => st
  let active := ide_active || st.executing
  let st2 := if st1.task_id && active && !(intTruthy st1.psp_interruption) then
      { st1 with task_ticks := st1.task_ticks + 1 }
    else st1
  if st2.phase ≠ "" ∧ st2.task_id = true ∧ st2.task_suspended = false then
    match tableCount st2.times st2.phase st2.psp_interruption active with
    | (times1, some _row) =>
      let st3 := { st2 with times := times1 }
      if !(intTruthy st3.psp_interruption) then
        { st3 with defect_fix_ticks := st3.defect_fix_ticks + 1 }
      else st3
    | (times1, none) => { st2 with times := times1 }
  else st2

/-- N consecutive ticks with the given activity-probe outcomes. -/
def ticks (bs : List Bool) (st : PspState) : PspState := bs.foldl TimerHandler st

/-- The row of a phase as the table reads it (zeros when absent). -/
def rowOf (st : PspState) (q : String) : TimeRow :=
  ((st.times.getD []).lookup q).getD TimeRow.zero

/-- Embedding of OnStartPSP: `manual` is true when the user clicked (the
event is not None), which disables automatic tracking; the timer starts and
a start event is logged (toolbar updates dropped). -/
def OnStartPSP (manual : Bool) (st : PspState) : PspState :=
  { st with
    psp_automatic_stopwatch := !manual,
    timer_running := true,
    log := st.log ++ ["start"] }

/-- Embedding of PSPInterrupt (probe-initiated pause): ignored when
automatic tracking is off or the task is suspended; starts the timer if
needed; begins counting an interruption if not already counting. -/
def PSPInterrupt (_msg : String) (st : PspState) : PspState :=
  if st.psp_automatic_stopwatch = false ∨ st.task_suspended = true then st
  else
    let st1 := if st.timer_running = false then OnStartPSP false st else st
    if st1.psp_interruption = none then
      { st1 with psp_interruption := some 0, log := st1.log ++ ["pausing!"] }
    else st1

/-- Embedding of PSPResume (probe-initiated resume): ignored when automatic
tracking is off or the task is suspended; starts the timer if needed; stops
counting an interruption if one is being counted (the comment() call in the
source is dead code, its body starts with return). -/
def PSPResume (_msg : String) (st : PspState) : PspState :=
  if st.psp_automatic_stopwatch = false ∨ st.task_suspended = true then st
  else
    let st1 := if st.timer_running = false then OnStartPSP false st else st
    if st1.psp_interruption ≠ none then
      { st1 with psp_interruption := none, log := st1.log ++ ["resuming"] }
    else st1

/-- Embedding of OnPausePSP: records whether the toggle was manual, then
resumes when an interruption is being counted and interrupts otherwise. -/
def OnPausePSP (manual : Bool) (msg : String) (st : PspState) : PspState :=
  let st1 := { st with psp_automatic_stopwatch := !manual }
  if st1.psp_interruption ≠ none then PSPResume msg st1 else PSPInterrupt "" st1

/-- Embedding of OnStopPSP: records whether the stop was manual, stops the
timer, logs, and - when the accumulator is truthy - routes through OnPausePSP
to close the interruption. -/
def OnStopPSP (manual : Bool) (msg : String) (st : PspState) : PspState :=
  let st1 := { st with
    psp_automatic_stopwatch := !manual,
    timer_running := false,
    log := st.log ++ ["stop"] }
  if intTruthy st1.psp_interruption then OnPausePSP manual msg st1 else st1

/-- A concrete state in the Interrupted sub-state (accumulator counting from
0) with phase code selected and an empty table. -/
def tick0 : PspState :=
  { psp_interruption := some 0, psp_automatic_stopwatch := true, timer_running := true,
    task_id := true, task_suspended := false, executing := false, phase := "code",
    times := some [], defect_fix_ticks := 0, task_ticks := 0, log := [] }

/-- A concrete non-interrupted state used for the manual-start scenario. -/
def base7 : PspState :=
  { psp_interruption := none, psp_automatic_stopwatch := true, timer_running := false,
    task_id := true, task_suspended := false, executing := false, phase := "code",
    times := some [], defect_fix_ticks := 0, task_ticks := 0, log := [] }

/-- The file system as update_metadata observes it: os.stat().st_mtime and
the decoded line sequence of a file; None models the OSError / IOError raised
for a missing or unreadable path. -/
structure FileSys where
  mtime : String → Option ℚ
  lines : String → Option (List String)

/-- The persistent metadata blobs (one pickle per file, addressed here by
filename since the sha224 path hash is injective for the model) and the
in-memory psp_metadata_cache of (timestamp, metadata). -/
structure MetaEnv where
  md_store : String → Option (List (Nat × (String × String)))
  cache : String → Option (ℚ × List (Nat × (String × String)))

/-- Insertion step of the key sort below. -/
def insortKey (x : Nat × (String × String)) :
    List (Nat × (String × String)) → List (Nat × (String × String))
  | [] => [x]
  | y :: t => if x.1 ≤ y.1 then x :: y :: t else y :: insortKey x t

/-- Sort a metadata dict by its integer keys: the order in which
old_metadata.values() yields the stored lines. -/
def sortByKey (l : List (Nat × (String × String))) : List (Nat × (String × String)) :=
  l.foldr insortKey []

/-- The (phase, line) values of a stored metadata dict in line order. -/
def sortedValues (d : List (Nat × (String × String))) : List (String × String) :=
  (sortByKey d).map Prod.snd

/-- Embedding of PSPMixin.update_metadata: a missing file fails at os.stat
(before the cache comparison), a stale or absent cache entry triggers a
rebuild that reads the file (failing if unreadable), a first-time file gets
every line tagged with the current phase, otherwise the persisted blob is
loaded and reconciled through the diff alignment (`diffFn`, the
diffutil.track_lines_changes collaborator); the rebuilt blob and cache entry
are persisted. -/
def update_metadata
    (diffFn : List String → List String → List (Option Nat × Option Nat))
    (fs : FileSys) (env : MetaEnv) (current_phase : String) (filename : String) :
    Except Unit (List (Nat × (String × String)) × MetaEnv) :=
  match fs.mtime filename with
  | none => Except.error ()
  | some ts =>
    let cached : Option (List (Nat × (String × String))) :=
      match env.cache filename with
      | none => none
      | some (t, md) => if t = ts then some md else none
    match cached with
    | some md => Except.ok (md, env)
    | none =>
      match fs.lines filename with
      | none => Except.error ()
      | some new =>
        let md : List (Nat × (String × String)) :=
          match env.md_store filename with
          | none => (List.range new.length).map (fun i => (i, (current_phase, new.getD i "")))
          | some old_dict =>
            let old_md := sortedValues old_dict
            rebuild_metadata current_phase old_md new (diffFn (old_md.map Prod.snd) new)
        Except.ok (md,
          { md_store := fun f => if f = filename then some md else env.md_store f,
            cache := fun f => if f = filename then some (ts, md) else env.cache f })

/-- The defect dictionary that NotifyDefect builds. -/
def notifyItem (summary dtype : String) (filename : Option String)
    (lineno offset : Nat) (description today phase : String) : DefectItem :=
  { number := none, summary := summary, description := description, date := today,
    dtype := dtype, inject_phase := phase, remove_phase := "", fix_time := some 0,
    fix_defect := "", filename := filename, lineno := some lineno,
    offset := some offset, checked := none, uuid := none }

/-- Embedding of PSPMixin.NotifyDefect: when a real filename and a non-zero
line are given (and the name is not a pseudo-file starting with <), the
injected phase is looked up in the (rebuilt) metadata - a read failure or an
out-of-range line propagates as an error and aborts the defect creation;
otherwise the phase falls back to the empty string and the item is added to
the defect list (pane raising is GUI-only and dropped). -/
def NotifyDefect
    (diffFn : List String → List String → List (Option Nat × Option Nat))
    (fs : FileSys) (env : MetaEnv) (st : DefectListState)
    (fresh current_phase : String) (summary dtype : String)
    (filename : Option String) (lineno offset : Nat)
    (description today : String) : Except Unit (DefectListState × MetaEnv) :=
  match filename with
  | some f =>
    if f ≠ "" ∧ lineno ≠ 0 ∧ f.startsWith "<" = false then
      match update_metadata diffFn fs env current_phase f with
      | Except.error e => Except.error e
      | Except.ok (md, env1) =>
        match md.lookup (lineno - 1) with
        | none => Except.error ()
        | some pl =>
          Except.ok ((AddItem fresh st
            (notifyItem summary dtype filename lineno offset description today pl.1)
            none).1, env1)
    else
      Except.ok ((AddItem fresh st
        (notifyItem summary dtype filename lineno offset description today "")
        none).1, env)
  | none =>
    Except.ok ((AddItem fresh st
      (notifyItem summary dtype none lineno offset description today "")
      none).1, env)

/-- A file system on which every path is missing. -/
def noFs : FileSys := { mtime := fun _ => none, lines := fun _ => none }

/-- An empty metadata store and cache. -/
def emptyEnv : MetaEnv := { md_store := fun _ => none, cache := fun _ => none }

/-- A trivial diff collaborator for scenarios that never reach the diff. -/
def noDiff : List String → List String → List (Option Nat × Option Nat) := fun _ _ => []

-- ===== Theorems =====

theorem ratTrunc_intCast (n : ℤ) : ratTrunc ((n : ℚ)) = n := by
  unfold ratTrunc
  split <;> simp

/-- C1: evaluation of parse_time at the spec examples.  The inputs with a
recognized unit and the empty input agree with the spec, but the unit-less
input "90" is multiplied by the hours factor 3600 (the unit-search loop finds
no match for the empty unit and falls through), returning 324000 rather than
the specified 90 seconds. -/
theorem c1_parse_time_eval :
    parse_time (String.toList "90") = some 324000 ∧
    parse_time (String.toList "1.5m") = some 90 ∧
    parse_time (String.toList "2h") = some 7200 ∧
    parse_time (String.toList "") = some 0 := by
  refine ⟨?_, ?_, ?_, ?_⟩ <;> with_unfolding_all rfl

/-- C9: pretty_time maps the absent value None to the empty string, so an
unset fix_time can be formatted, and on every other input the output depends
only on the truncation of the count to a whole number of seconds. -/
theorem c9_pretty_time_none_and_trunc :
    pretty_time none = [] ∧
    ∀ q : ℚ, pretty_time (some q) = pretty_time (some ((ratTrunc q : ℤ) : ℚ)) := by
  constructor
  · rfl
  · intro q
    simp only [pretty_time, ratTrunc_intCast]

theorem digit_facts :
    ∀ c ∈ DIGITS, c.isWhitespace = false ∧ c.toLower = c ∧ c.isDigit = true ∧
      c ≠ '.' ∧ c ≠ ',' ∧ c ≠ '-' ∧ c ≠ '+' ∧ c ≠ ' ' := by decide

theorem digitChar_mem (d : Nat) : digitChar d ∈ DIGITS := by
  unfold digitChar DIGITS
  split_ifs <;> simp

theorem renderNat_mem (n : Nat) : ∀ c ∈ renderNat n, c ∈ DIGITS := by
  induction n using Nat.strong_induction_on with
  | _ n ih =>
    rw [renderNat]
    split
    · intro c hc
      simp only [List.mem_singleton] at hc
      subst hc
      exact digitChar_mem n
    · intro c hc
      rcases List.mem_append.mp hc with h | h
      · exact ih (n / 10) (Nat.div_lt_self (by omega) (by omega)) c h
      · simp only [List.mem_singleton] at h
        subst h
        exact digitChar_mem (n % 10)

theorem renderNat_ne_nil (n : Nat) : renderNat n ≠ [] := by
  rw [renderNat]
  split
  · simp
  · simp

theorem digitChar_toNat : ∀ d : Nat, d < 10 → (digitChar d).toNat = 48 + d := by decide

theorem digitsVal_append_single (l : List Char) (c : Char) :
    digitsVal (l ++ [c]) = 10 * digitsVal l + (c.toNat - 48) := by
  simp [digitsVal, List.foldl_append]

theorem digitsVal_renderNat (n : Nat) : digitsVal (renderNat n) = n := by
  induction n using Nat.strong_induction_on with
  | _ n ih =>
    rw [renderNat]
    split
    · rename_i h
      simp [digitsVal, digitChar_toNat n h]
    · rename_i h
      rw [digitsVal_append_single, ih (n / 10) (Nat.div_lt_self (by omega) (by omega)),
        digitChar_toNat (n % 10) (Nat.mod_lt n (by omega))]
      omega
theorem takeWhile_of_all {p : Char → Bool} {l : List Char} (h : ∀ c ∈ l, p c = true) :
    l.takeWhile p = l := by
  induction l with
  | nil => rfl
  | cons a t ih =>
    simp [List.takeWhile_cons, h a (by simp), ih (fun c hc => h c (by simp [hc]))]

theorem dropWhile_of_all {p : Char → Bool} {l : List Char} (h : ∀ c ∈ l, p c = true) :
    l.dropWhile p = [] := by
  induction l with
  | nil => rfl
  | cons a t ih =>
    simp [List.dropWhile_cons, h a (by simp), ih (fun c hc => h c (by simp [hc]))]

theorem parseUnsigned_digits (l : List Char) (hne : l ≠ [])
    (hd : ∀ c ∈ l, c ∈ DIGITS) : parseUnsigned l = some ((digitsVal l : ℚ)) := by
  have hdot : ∀ c ∈ l, (fun c => decide (c ≠ '.')) c = true := by
    intro c hc
    have := (digit_facts c (hd c hc)).2.2.2.1
    simp [this]
  have hdig : l.all Char.isDigit = true := by
    rw [List.all_eq_true]
    intro c hc
    exact (digit_facts c (hd c hc)).2.2.1
  unfold parseUnsigned
  simp only [takeWhile_of_all hdot, dropWhile_of_all hdot, if_pos rfl]
  simp [hne, hdig]

theorem parseFloat_digits (l : List Char) (hne : l ≠ [])
    (hd : ∀ c ∈ l, c ∈ DIGITS) : parseFloat l = some ((digitsVal l : ℚ)) := by
  match l, hne with
  | c :: t, _ =>
    have hc := digit_facts c (hd c (by simp))
    unfold parseFloat
    simp only [hc.2.2.2.2.2.1, hc.2.2.2.2.2.2.1, if_neg, or_self]
    rw [if_neg (by simp [hc.2.2.2.2.2.1, hc.2.2.2.2.2.2.1])]
    rw [if_neg (by simp [hc.2.2.2.2.2.1])]
    rw [parseUnsigned_digits (c :: t) (by simp) hd]
    simp

theorem splitWsAux_nonws (A : List Char) :
    ∀ (cur cs : List Char), (∀ c ∈ A, c.isWhitespace = false) →
      splitWsAux cur (A ++ cs) = splitWsAux (A.reverse ++ cur) cs := by
  induction A with
  | nil => intro cur cs _; simp
  | cons a t ih =>
    intro cur cs h
    have ha : a.isWhitespace = false := h a (by simp)
    have step : splitWsAux cur ((a :: t) ++ cs) = splitWsAux (a :: cur) (t ++ cs) := by
      rw [List.cons_append]
      show (if a.isWhitespace = true then _ else splitWsAux (a :: cur) (t ++ cs)) = _
      rw [if_neg (by simp [ha])]
    rw [step, ih (a :: cur) cs (fun c hc => h c (by simp [hc]))]
    simp

theorem splitWsAux_final (cur : List Char) (u : Char) (hcur : cur ≠ [])
    (hu : u.isWhitespace = false) :
    splitWsAux cur [' ', u] = [cur.reverse, [u]] := by
  show (if (' ').isWhitespace = true then _ else _) = _
  rw [if_pos (by decide)]
  rw [if_neg hcur]
  congr 1
  show (if u.isWhitespace = true then _ else splitWsAux [u] []) = _
  rw [if_neg (by simp [hu])]
  show (if ([u] : List Char) = [] then _ else _) = _
  rw [if_neg (by simp)]
  simp

theorem splitWs_word_unit (A : List Char) (u : Char) (hA : A ≠ [])
    (h : ∀ c ∈ A, c.isWhitespace = false) (hu : u.isWhitespace = false) :
    splitWs (A ++ [' ', u]) = [A, [u]] := by
  unfold splitWs
  rw [splitWsAux_nonws A [] [' ', u] h]
  rw [splitWsAux_final (A.reverse ++ []) u (by simp [hA]) hu]
  simp

theorem pyStrip_word_unit (c : Char) (t : List Char) (u : Char)
    (hc : c.isWhitespace = false) (hu : u.isWhitespace = false) :
    pyStrip ((c :: t) ++ [' ', u]) = (c :: t) ++ [' ', u] := by
  unfold pyStrip
  have h1 : List.dropWhile Char.isWhitespace ((c :: t) ++ [' ', u]) = (c :: t) ++ [' ', u] := by
    rw [List.cons_append, List.dropWhile_cons]
    simp [hc]
  rw [h1]
  have h2 : ((c :: t) ++ [' ', u]).reverse = u :: (' ' :: (t.reverse ++ [c])) := by simp
  rw [h2, List.dropWhile_cons]
  simp [hu]

theorem map_fix {f : Char → Char} (l : List Char) (h : ∀ c ∈ l, f c = c) : l.map f = l := by
  induction l with
  | nil => rfl
  | cons a t ih => simp [h a (by simp), ih (fun c hc => h c (by simp [hc]))]

theorem pyLower_fix (l : List Char) (h : ∀ c ∈ l, c.toLower = c) : pyLower l = l :=
  map_fix l h

theorem parse_render (m : Nat) (u : Char) (hu_ws : u.isWhitespace = false)
    (hu_low : u.toLower = u) :
    parse_time (renderNat m ++ [' ', u]) = some ((m : ℚ) * unitFactor [u]) := by
  have hmem := renderNat_mem m
  obtain ⟨c, t, hct⟩ : ∃ c t, renderNat m = c :: t := by
    cases h : renderNat m with
    | nil => exact absurd h (renderNat_ne_nil m)
    | cons c t => exact ⟨c, t, rfl⟩
  rw [hct] at hmem
  have hnws : ∀ x ∈ c :: t, x.isWhitespace = false :=
    fun x hx => (digit_facts x (hmem x hx)).1
  have hlow : ∀ x ∈ (c :: t) ++ [' ', u], x.toLower = x := by
    intro x hx
    rcases List.mem_append.mp hx with h | h
    · exact (digit_facts x (hmem x h)).2.1
    · simp only [List.mem_cons, List.mem_singleton] at h
      rcases h with rfl | rfl | h
      · decide
      · exact hu_low
      · cases h
  have hmap : (c :: t).map (fun x => if x = ',' then '.' else x) = c :: t :=
    map_fix _ (fun x hx => by simp [(digit_facts x (hmem x hx)).2.2.2.2.1])
  unfold parse_time
  rw [hct]
  rw [pyStrip_word_unit c t u (hnws c (by simp)) hu_ws]
  rw [pyLower_fix _ hlow]
  rw [if_neg (by simp)]
  rw [if_pos (by simp)]
  rw [splitWs_word_unit (c :: t) u (by simp) hnws hu_ws]
  simp only [hmap, parseFloat_digits (c :: t) (by simp) hmem]
  rw [← hct, digitsVal_renderNat]

theorem ratTrunc_natCast (n : Nat) : ratTrunc ((n : ℚ)) = (n : ℤ) := by
  unfold ratTrunc
  rw [if_pos (by positivity)]
  exact_mod_cast Int.floor_natCast n

theorem renderInt_natCast (n : Nat) : renderInt ((n : ℤ)) = renderNat n := by
  unfold renderInt
  rw [if_neg (by omega)]
  simp

/-- C8: for every non-negative whole duration x that is an integer multiple of the
display unit pretty_time selects for it, parse_time recovers x exactly from the
formatted string. -/
theorem c8_parse_of_pretty (x : Nat) (h : displayFactor x ∣ x) :
    parse_time (pretty_time (some ((x : ℚ)))) = some ((x : ℚ)) := by
  simp only [pretty_time, ratTrunc_natCast]
  split_ifs with hA hB hC hD hE
  · -- seconds, fraction branch: impossible since any integer is a multiple of 1
    dsimp only at hB
    exact absurd (Int.emod_one _) hB
  · -- seconds, integer branch
    dsimp only
    have hdiv : (((x : ℤ)) : ℚ) / (((1 : ℤ)) : ℚ) = ((x : ℚ)) := by push_cast; ring
    rw [hdiv, ratTrunc_natCast, renderInt_natCast]
    rw [parse_render x 's' (by decide) (by decide)]
    simp [unitFactor]
  · -- minutes, fraction branch: contradicts 60 ∣ x
    have hx1 : 60 ≤ x := by
      by_contra hcon
      exact hA (by push_cast; norm_num; exact_mod_cast Nat.lt_of_not_le hcon)
    have hx2 : x < 3600 := by
      push_cast at hC
      exact_mod_cast hC
    have hdvd : (60 : ℤ) ∣ ((x : ℤ)) := by
      have : displayFactor x = 60 := by
        simp [displayFactor, Nat.not_lt_of_le hx1, hx2]
      rw [this] at h
      exact_mod_cast Int.natCast_dvd_natCast.mpr h
    dsimp only at hD
    omega
  · -- minutes, integer branch
    have hx1 : 60 ≤ x := by
      by_contra hcon
      exact hA (by push_cast; norm_num; exact_mod_cast Nat.lt_of_not_le hcon)
    have hx2 : x < 3600 := by
      push_cast at hC
      exact_mod_cast hC
    have hdvd : (60 : ℕ) ∣ x := by
      have : displayFactor x = 60 := by
        simp [displayFactor, Nat.not_lt_of_le hx1, hx2]
      rwa [this] at h
    obtain ⟨k, hk⟩ := hdvd
    dsimp only
    have hdiv : (((x : ℤ)) : ℚ) / (((60 : ℤ)) : ℚ) = ((k : ℚ)) := by
      subst hk
      push_cast
      rw [mul_div_cancel_left₀ _ (by norm_num : (60 : ℚ) ≠ 0)]
    rw [hdiv, ratTrunc_natCast, renderInt_natCast]
    rw [parse_render k 'm' (by decide) (by decide)]
    subst hk
    simp [unitFactor]
    ring
  · -- hours, fraction branch: contradicts 3600 ∣ x
    have hx1 : 60 ≤ x := by
      by_contra hcon
      exact hA (by push_cast; norm_num; exact_mod_cast Nat.lt_of_not_le hcon)
    have hx2 : 3600 ≤ x := by
      by_contra hcon
      exact hC (by push_cast; norm_num; exact_mod_cast Nat.lt_of_not_le hcon)
    have hdvd : (3600 : ℤ) ∣ ((x : ℤ)) := by
      have : displayFactor x = 3600 := by
        simp [displayFactor, Nat.not_lt_of_le hx1, Nat.not_lt_of_le hx2]
      rw [this] at h
      exact_mod_cast Int.natCast_dvd_natCast.mpr h
    dsimp only at hE
    omega
  · -- hours, integer branch
    have hx1 : 60 ≤ x := by
      by_contra hcon
      exact hA (by push_cast; norm_num; exact_mod_cast Nat.lt_of_not_le hcon)
    have hx2 : 3600 ≤ x := by
      by_contra hcon
      exact hC (by push_cast; norm_num; exact_mod_cast Nat.lt_of_not_le hcon)
    have hdvd : (3600 : ℕ) ∣ x := by
      have : displayFactor x = 3600 := by
        simp [displayFactor, Nat.not_lt_of_le hx1, Nat.not_lt_of_le hx2]
      rwa [this] at h
    obtain ⟨k, hk⟩ := hdvd
    dsimp only
    have hdiv : (((x : ℤ)) : ℚ) / (((3600 : ℤ)) : ℚ) = ((k : ℚ)) := by
      subst hk
      push_cast
      rw [mul_div_cancel_left₀ _ (by norm_num : (3600 : ℚ) ≠ 0)]
    rw [hdiv, ratTrunc_natCast, renderInt_natCast]
    rw [parse_render k 'h' (by decide) (by decide)]
    subst hk
    simp [unitFactor]
    ring

/-- Witness for C8 at x = 120 (two minutes, a multiple of the selected unit 60). -/
theorem c8_parse_of_pretty_witness :
    displayFactor 120 ∣ 120 ∧
      parse_time (pretty_time (some (((120 : Nat)) : ℚ))) = some ((((120 : Nat)) : ℚ)) :=
  ⟨by decide, c8_parse_of_pretty 120 (by decide)⟩

theorem entry_fst (phase : String) (old_md : List (String × String)) (new : List String) :
    ∀ p : Option Nat × Option Nat,
      (entryOfChange phase old_md new p).map Prod.fst = p.2 := by
  intro p
  rcases p with ⟨o, n⟩
  cases n with
  | none => rfl
  | some n => cases o <;> rfl

theorem filterMap_entry_keys (phase : String) (old_md : List (String × String))
    (new : List String) (changes : List (Option Nat × Option Nat)) :
    (changes.filterMap (entryOfChange phase old_md new)).map Prod.fst = alignNew changes := by
  induction changes with
  | nil => rfl
  | cons p t ih =>
    rcases p with ⟨o, n⟩
    cases n with
    | none =>
      cases o with
      | none => simpa [alignNew, entryOfChange] using ih
      | some o => simpa [alignNew, entryOfChange] using ih
    | some n =>
      cases o with
      | none => simpa [alignNew, entryOfChange] using ih
      | some o => simpa [alignNew, entryOfChange] using ih

theorem dictInsert_fresh {α : Type} (m : List (Nat × α)) (k : Nat) (v : α)
    (h : k ∉ m.map Prod.fst) : dictInsert m k v = m ++ [(k, v)] := by
  induction m with
  | nil => rfl
  | cons a t ih =>
    rcases a with ⟨k0, v0⟩
    simp only [List.map_cons, List.mem_cons] at h
    push_neg at h
    simp only [dictInsert, if_neg (Ne.symm h.1)]
    rw [ih h.2]
    simp

theorem notmem_append_single {α : Type} {md : List (Nat × α)} {k n : Nat} {v : α}
    (h1 : k ∉ md.map Prod.fst) (h2 : k ≠ n) : k ∉ (md ++ [(n, v)]).map Prod.fst := by
  simp only [List.map_append, List.mem_append, List.map_cons, List.map_nil,
    List.mem_singleton]
  rintro (hc | hc)
  · exact h1 hc
  · exact h2 hc

theorem rebuild_go (phase : String) (old_md : List (String × String)) (new : List String) :
    ∀ (changes : List (Option Nat × Option Nat)) (md : List (Nat × (String × String))),
      (alignNew changes).Nodup →
      (∀ k ∈ alignNew changes, k ∉ md.map Prod.fst) →
      changes.foldl (fun md p =>
        match p.2 with
        | none => md
        | some n =>
          match p.1 with
          | none => dictInsert md n (phase, new.getD n "")
          | some o => dictInsert md n ((old_md.getD o ("", "")).1, new.getD n "")) md
      = md ++ changes.filterMap (entryOfChange phase old_md new) := by
  intro changes
  induction changes with
  | nil => intro md _ _; simp
  | cons p t ih =>
    intro md hnd hdisj
    rcases p with ⟨o, n⟩
    cases n with
    | none =>
      have hnd' : (alignNew t).Nodup := by simpa [alignNew] using hnd
      have hdisj' : ∀ k ∈ alignNew t, k ∉ md.map Prod.fst := by
        intro k hk
        exact hdisj k (by simpa [alignNew] using hk)
      cases o with
      | none => simpa [entryOfChange] using ih md hnd' hdisj'
      | some o => simpa [entryOfChange] using ih md hnd' hdisj'
    | some n =>
      have hna : alignNew ((o, some n) :: t) = n :: alignNew t := by simp [alignNew]
      have hmemn : n ∈ alignNew ((o, some n) :: t) := by simp [alignNew]
      have hkey : n ∉ md.map Prod.fst := hdisj n hmemn
      rw [hna] at hnd
      have hnd' : (alignNew t).Nodup := hnd.of_cons
      have hnotin : n ∉ alignNew t := (List.nodup_cons.mp hnd).1
      cases o with
      | none =>
        have hdisj' : ∀ k ∈ alignNew t,
            k ∉ (md ++ [(n, (phase, new.getD n ""))]).map Prod.fst := by
          intro k hk
          exact notmem_append_single
            (hdisj k (by rw [hna]; exact List.mem_cons_of_mem n hk))
            (fun hc => hnotin (hc ▸ hk))
        show (t.foldl _ (dictInsert md n (phase, new.getD n ""))) = _
        rw [dictInsert_fresh md n _ hkey]
        rw [ih (md ++ [(n, (phase, new.getD n ""))]) hnd' hdisj']
        simp [entryOfChange]
      | some o =>
        have hdisj' : ∀ k ∈ alignNew t,
            k ∉ (md ++ [(n, ((old_md.getD o ("", "")).1, new.getD n ""))]).map Prod.fst := by
          intro k hk
          exact notmem_append_single
            (hdisj k (by rw [hna]; exact List.mem_cons_of_mem n hk))
            (fun hc => hnotin (hc ▸ hk))
        show (t.foldl _ (dictInsert md n ((old_md.getD o ("", "")).1, new.getD n ""))) = _
        rw [dictInsert_fresh md n _ hkey]
        rw [ih (md ++ [(n, ((old_md.getD o ("", "")).1, new.getD n ""))]) hnd' hdisj']
        simp [entryOfChange]

theorem rebuild_eq_filterMap (phase : String) (old_md : List (String × String))
    (new : List String) (changes : List (Option Nat × Option Nat))
    (hnd : (alignNew changes).Nodup) :
    rebuild_metadata phase old_md new changes
      = changes.filterMap (entryOfChange phase old_md new) := by
  have := rebuild_go phase old_md new changes [] hnd (by simp)
  simpa [rebuild_metadata] using this

theorem lookup_of_mem_nodup {α : Type} (l : List (Nat × α)) (k : Nat) (v : α)
    (hmem : (k, v) ∈ l) (hnd : (l.map Prod.fst).Nodup) : l.lookup k = some v := by
  induction l with
  | nil => cases hmem
  | cons a t ih =>
    rcases a with ⟨k0, v0⟩
    simp only [List.map_cons, List.nodup_cons] at hnd
    rcases List.mem_cons.mp hmem with h | h
    · injection h with h1 h2
      subst h1
      subst h2
      simp [List.lookup]
    · have hk : k ≠ k0 := by
        intro hc
        subst hc
        exact hnd.1 (List.mem_map_of_mem Prod.fst h)
      have hb : (k == k0) = false := beq_eq_false_iff_ne.mpr hk
      simp only [List.lookup, hb]
      exact ih h hnd.2

/-- C2: for every old line sequence with per-line phase metadata, every new
line sequence and every diff alignment satisfying the DiffEngine contract,
the rebuilt metadata has exactly len(new) entries whose keys are exactly the
indices 0..len(new)-1; every pair the alignment reports as unchanged keeps the
phase stored at its old index, and every line present only in the new
sequence is assigned the phase current at rebuild time. -/
theorem c2_rebuild (phase : String) (old_md : List (String × String)) (new : List String)
    (changes : List (Option Nat × Option Nat))
    (hal : AlignSpec (old_md.map Prod.snd) new changes) :
    (rebuild_metadata phase old_md new changes).length = new.length ∧
    ((rebuild_metadata phase old_md new changes).map Prod.fst).Perm (List.range new.length) ∧
    (∀ o n, ((some o, some n) : Option Nat × Option Nat) ∈ changes →
      (rebuild_metadata phase old_md new changes).lookup n
        = some ((old_md.getD o ("", "")).1, new.getD n "")) ∧
    (∀ n, ((none, some n) : Option Nat × Option Nat) ∈ changes →
      (rebuild_metadata phase old_md new changes).lookup n = some (phase, new.getD n "")) := by
  obtain ⟨hperm, -, -⟩ := hal
  have hnd : (alignNew changes).Nodup := hperm.nodup_iff.mpr (List.nodup_range _)
  have hre := rebuild_eq_filterMap phase old_md new changes hnd
  have hkeys : (rebuild_metadata phase old_md new changes).map Prod.fst = alignNew changes := by
    rw [hre]
    exact filterMap_entry_keys phase old_md new changes
  have hkeysnd : ((rebuild_metadata phase old_md new changes).map Prod.fst).Nodup := by
    rw [hkeys]; exact hnd
  refine ⟨?_, ?_, ?_, ?_⟩
  · have h1 : ((rebuild_metadata phase old_md new changes).map Prod.fst).length
        = (List.range new.length).length := hperm.length_eq ▸ by rw [hkeys]
    simpa using h1.trans (by simp)
  · rw [hkeys]; exact hperm
  · intro o n hmem
    have hval : (n, ((old_md.getD o ("", "")).1, new.getD n ""))
        ∈ rebuild_metadata phase old_md new changes := by
      rw [hre]
      exact List.mem_filterMap.mpr ⟨(some o, some n), hmem, rfl⟩
    exact lookup_of_mem_nodup _ n _ hval hkeysnd
  · intro n hmem
    have hval : (n, (phase, new.getD n "")) ∈ rebuild_metadata phase old_md new changes := by
      rw [hre]
      exact List.mem_filterMap.mpr ⟨(none, some n), hmem, rfl⟩
    exact lookup_of_mem_nodup _ n _ hval hkeysnd

/-- Witness for C2: a two-line file where line 0 is kept and line 1 is
replaced while the current phase is test. -/
theorem c2_rebuild_witness :
    AlignSpec ([("code", "a"), ("code", "b")].map Prod.snd) ["a", "c"]
      [(some 0, some 0), (some 1, none), (none, some 1)] ∧
    ((rebuild_metadata "test" [("code", "a"), ("code", "b")] ["a", "c"]
        [(some 0, some 0), (some 1, none), (none, some 1)]).length = 2 ∧
      ((rebuild_metadata "test" [("code", "a"), ("code", "b")] ["a", "c"]
        [(some 0, some 0), (some 1, none), (none, some 1)]).map Prod.fst).Perm
          (List.range 2) ∧
      (∀ o n, ((some o, some n) : Option Nat × Option Nat) ∈
          [(some 0, some 0), (some 1, none), (none, some 1)] →
        (rebuild_metadata "test" [("code", "a"), ("code", "b")] ["a", "c"]
          [(some 0, some 0), (some 1, none), (none, some 1)]).lookup n
          = some (([("code", "a"), ("code", "b")].getD o ("", "")).1, ["a", "c"].getD n "")) ∧
      (∀ n, ((none, some n) : Option Nat × Option Nat) ∈
          [(some 0, some 0), (some 1, none), (none, some 1)] →
        (rebuild_metadata "test" [("code", "a"), ("code", "b")] ["a", "c"]
          [(some 0, some 0), (some 1, none), (none, some 1)]).lookup n
          = some ("test", ["a", "c"].getD n ""))) :=
  ⟨⟨by decide, by decide, by decide⟩,
    c2_rebuild "test" [("code", "a"), ("code", "b")] ["a", "c"]
      [(some 0, some 0), (some 1, none), (none, some 1)]
      ⟨by decide, by decide, by decide⟩⟩

/-- C10: when no defect store is loaded (the backing data is None because no
task is selected), AddItem returns immediately for every item and key: the
state is unchanged (nothing inserted, no event logged, no row added), the
item is not mutated (no number assigned), and no value is returned. -/
theorem c10_additem_no_store (fresh : String) (st : DefectListState) (item : DefectItem)
    (key0 : Option String) (h : st.data = none) :
    AddItem fresh st item key0 = (st, item, none) := by
  unfold AddItem
  rw [h]

/-- C4 (amended): for every defect add without an explicit key, if an
existing record agrees on all of (summary, date, filename, lineno, offset),
the add does not insert: the store, row count and key map are unchanged, a
dup_defect event carrying the existing defect's stored uuid is logged, the
item is not mutated, and the call returns None (AddItem has no return value),
not the existing defect's key. -/
theorem c4_amended_thm (fresh : String) (st : DefectListState)
    (data : List (String × DefectItem)) (item : DefectItem) (kd : String × DefectItem)
    (u : String) (hd : st.data = some data) (hfind : data.find? (dupPred item) = some kd)
    (hu : kd.2.uuid = some u) :
    AddItem fresh st item none
      = ({ st with log := st.log ++ [("dup_defect", u)] }, item, none) := by
  unfold AddItem
  rw [hd]
  dsimp only
  rw [hfind]
  simp [hu]

theorem oncheck_noop (p k : String) (it : DefectItem) (f wf : Bool)
    (h : it.checked = some f) : OnCheckItem p k it f wf = (it, []) := by
  unfold OnCheckItem
  rw [if_pos h]

theorem oncheck_result_checked (p k : String) (it : DefectItem) (w : Bool)
    (h : it.checked ≠ some true) : (OnCheckItem p k it true w).1.checked = some true := by
  unfold OnCheckItem
  rw [if_neg h]

/-- C5: OnCheckItem is a no-op when the stored checked flag already equals
the requested flag; on the false-to-true transition it sets remove_phase to
the caller's current phase only if remove_phase is empty, and a second
checked call is a no-op so remove_phase is set exactly once; when wontfix is
true the transition additionally clears fix_time. -/
theorem c5_set_checked (phase phase2 key key2 : String) (item : DefectItem)
    (flag w w2 : Bool) :
    (item.checked = some flag → OnCheckItem phase key item flag w = (item, [])) ∧
    (item.checked = some false →
      ((OnCheckItem phase key item true w).1.remove_phase
          = (if item.remove_phase = "" then phase else item.remove_phase)) ∧
      (OnCheckItem phase2 key2 (OnCheckItem phase key item true w).1 true w2
          = ((OnCheckItem phase key item true w).1, [])) ∧
      (w = true → (OnCheckItem phase key item true w).1.fix_time = none)) := by
  constructor
  · intro hf
    exact oncheck_noop phase key item flag w hf
  · intro h
    have hne : ¬(item.checked = some true) := by simp [h]
    refine ⟨?_, ?_, ?_⟩
    · unfold OnCheckItem
      rw [if_neg hne]
      cases w <;> by_cases hr : item.remove_phase = "" <;> simp [hr]
    · exact oncheck_noop phase2 key2 _ true w2 (oncheck_result_checked phase key item w hne)
    · intro hw
      subst hw
      unfold OnCheckItem
      rw [if_neg hne]
      by_cases hr : item.remove_phase = "" <;> simp [hr]

/-- Witness for C5 at a concrete unchecked defect with empty remove_phase. -/
theorem c5_witness :
    sampleStored.checked = some false ∧
    OnCheckItem "test" "u1" sampleStored false true = (sampleStored, []) ∧
    ((OnCheckItem "test" "u1" sampleStored true true).1.remove_phase
        = (if sampleStored.remove_phase = "" then "test" else sampleStored.remove_phase)) ∧
    OnCheckItem "code" "u2" (OnCheckItem "test" "u1" sampleStored true true).1 true false
        = ((OnCheckItem "test" "u1" sampleStored true true).1, []) ∧
    (OnCheckItem "test" "u1" sampleStored true true).1.fix_time = none := by
  have h := c5_set_checked "test" "code" "u1" "u2" sampleStored false true false
  exact ⟨rfl, h.1 rfl, (h.2 rfl).1, (h.2 rfl).2.1, (h.2 rfl).2.2 rfl⟩

/-- C4 counterexample: at a concrete store holding a matching defect whose
uuid is u1, the duplicate add returns None, not the existing defect's key u1
as the claim states (AddItem never returns a value). -/
theorem c4_counterexample :
    dupPred sampleNew ("u1", sampleStored) = true ∧
    sampleStored.uuid = some "u1" ∧
    (AddItem "u9" sampleSt sampleNew none).2.2 = none ∧
    (AddItem "u9" sampleSt sampleNew none).2.2 ≠ some "u1" := by
  refine ⟨by decide, rfl, by with_unfolding_all rfl, ?_⟩
  intro hcon
  have : (none : Option String) = some "u1" := by
    rw [show (AddItem "u9" sampleSt sampleNew none).2.2 = none from by
      with_unfolding_all rfl] at hcon
    exact hcon
  cases this

/-- Witness for C4 at the concrete duplicate store. -/
theorem c4_amended_witness :
    sampleSt.data = some [("u1", sampleStored)] ∧
    [("u1", sampleStored)].find? (dupPred sampleNew) = some ("u1", sampleStored) ∧
    AddItem "u9" sampleSt sampleNew none
      = ({ sampleSt with log := sampleSt.log ++ [("dup_defect", "u1")] }, sampleNew, none) :=
  ⟨rfl, by decide,
    c4_amended_thm "u9" sampleSt [("u1", sampleStored)] sampleNew ("u1", sampleStored)
      "u1" rfl (by decide) rfl⟩

/-- Witness for C10 at a concrete store-less state. -/
theorem c10_witness :
    sampleEmptySt.data = none ∧
    AddItem "u1" sampleEmptySt sampleNew none = (sampleEmptySt, sampleNew, none) :=
  ⟨rfl, c10_additem_no_store "u1" sampleEmptySt sampleNew none rfl⟩

theorem lookup_assocSet_self (l : List (String × TimeRow)) (p : String) (r : TimeRow) :
    (assocSet l p r).lookup p = some r := by
  induction l with
  | nil => simp [assocSet, List.lookup]
  | cons a t ih =>
    rcases a with ⟨q, s⟩
    by_cases h : q = p
    · subst h
      simp [assocSet, List.lookup]
    · simp only [assocSet, if_neg h, List.lookup]
      rw [show (p == q) = false from beq_eq_false_iff_ne.mpr (Ne.symm h)]
      exact ih

theorem lookup_assocSet_ne (l : List (String × TimeRow)) (p q : String) (r : TimeRow)
    (h : q ≠ p) : (assocSet l p r).lookup q = l.lookup q := by
  induction l with
  | nil =>
    simp only [assocSet, List.lookup]
    rw [show (q == p) = false from beq_eq_false_iff_ne.mpr h]
  | cons a t ih =>
    rcases a with ⟨q0, s⟩
    by_cases h0 : q0 = p
    · subst h0
      simp only [assocSet, if_pos rfl, List.lookup]
      rw [show (q == q0) = false from beq_eq_false_iff_ne.mpr h]
    · simp only [assocSet, if_neg h0, List.lookup]
      cases hqq : (q == q0) with
      | true => rfl
      | false => exact ih

theorem timer_tick_interrupted (st : PspState) (k : Int) (tbl : List (String × TimeRow))
    (b : Bool) (hi : st.psp_interruption = some k) (hk : 0 ≤ k)
    (hph : st.phase ≠ "") (ht : st.task_id = true) (hs : st.task_suspended = false)
    (he : st.executing = false) (htb : st.times = some tbl) :
    TimerHandler st b = { st with
      psp_interruption := some (k + 1),
      times := some (assocSet tbl st.phase
        (bumpRow ((tbl.lookup st.phase).getD TimeRow.zero)
          (if b then TKey.interruption else TKey.off_task))) } := by
  have h1 : intTruthy (some (k + 1)) = true := by
    simp only [intTruthy, bne_iff_ne, ne_eq]
    omega
  unfold TimerHandler tableCount
  rw [hi]
  dsimp only
  rw [he, htb, h1]
  simp only [Bool.or_false, Bool.not_true, Bool.and_false, Bool.false_eq_true, if_false,
    ite_false, ne_eq, hph, not_false_eq_true, ht, hs, and_self, if_true, ite_true]
  cases b <;> simp [h1]

theorem bump_actual (r : TimeRow) (b : Bool) :
    (bumpRow r (if b then TKey.interruption else TKey.off_task)).actual = r.actual := by
  cases b <;> rfl

theorem bump_interruption (r : TimeRow) (b : Bool) :
    (bumpRow r (if b then TKey.interruption else TKey.off_task)).interruption
      = r.interruption + (if b then 1 else 0) := by
  cases b <;> simp [bumpRow]

theorem bump_off_task (r : TimeRow) (b : Bool) :
    (bumpRow r (if b then TKey.interruption else TKey.off_task)).off_task
      = r.off_task + (if b then 0 else 1) := by
  cases b <;> simp [bumpRow]

theorem rowOf_upd_self (st : PspState) (k : Option Int) (tbl : List (String × TimeRow))
    (r : TimeRow) :
    rowOf { st with psp_interruption := k, times := some (assocSet tbl st.phase r) }
      st.phase = r := by
  simp [rowOf, lookup_assocSet_self]

theorem rowOf_upd_ne (st : PspState) (k : Option Int) (tbl : List (String × TimeRow))
    (r : TimeRow) (q : String) (hq : q ≠ st.phase) :
    rowOf { st with psp_interruption := k, times := some (assocSet tbl st.phase r) } q
      = (tbl.lookup q).getD TimeRow.zero := by
  simp [rowOf, lookup_assocSet_ne _ _ _ _ hq]

/-- C3 (amended): while the stopwatch is Interrupted (accumulator counting,
phase selected, task loaded and not suspended), N consecutive ticks increase
the interruption accumulator by exactly N and never change any per-phase
actual counter; the per-phase interruption counter of the current phase grows
by the number of ticks whose activity probe reported active and off_task by
the number of inactive ticks (an inactive probe during an interruption is
charged to off_task, not to interruption); other phases' rows are
untouched. -/
theorem c3_amended (bs : List Bool) (st : PspState) (k : Int)
    (tbl : List (String × TimeRow))
    (hi : st.psp_interruption = some k) (hk : 0 ≤ k) (hph : st.phase ≠ "")
    (ht : st.task_id = true) (hs : st.task_suspended = false)
    (he : st.executing = false) (htb : st.times = some tbl) :
    (ticks bs st).psp_interruption = some (k + bs.length) ∧
    (∀ q, (rowOf (ticks bs st) q).actual = (rowOf st q).actual) ∧
    (rowOf (ticks bs st) st.phase).interruption
      = (rowOf st st.phase).interruption + (bs.count true : ℚ) ∧
    (rowOf (ticks bs st) st.phase).off_task
      = (rowOf st st.phase).off_task + (bs.count false : ℚ) ∧
    (∀ q, q ≠ st.phase → rowOf (ticks bs st) q = rowOf st q) := by
  induction bs generalizing st k tbl with
  | nil =>
    refine ⟨by simp [ticks, hi], fun q => rfl, by simp [ticks], by simp [ticks],
      fun q _ => rfl⟩
  | cons b bs' ih =>
    have htick := timer_tick_interrupted st k tbl b hi hk hph ht hs he htb
    rw [show ticks (b :: bs') st = ticks bs' (TimerHandler st b) from rfl, htick]
    have hrowst : ∀ q, rowOf st q = (tbl.lookup q).getD TimeRow.zero := by
      intro q
      simp [rowOf, htb]
    have ihS := ih { st with
        psp_interruption := some (k + 1),
        times := some (assocSet tbl st.phase
          (bumpRow ((tbl.lookup st.phase).getD TimeRow.zero)
            (if b then TKey.interruption else TKey.off_task))) }
      (k + 1)
      (assocSet tbl st.phase
        (bumpRow ((tbl.lookup st.phase).getD TimeRow.zero)
          (if b then TKey.interruption else TKey.off_task)))
      rfl (by omega) hph ht hs he rfl
    dsimp only at ihS
    obtain ⟨ih1, ih2, ih3, ih4, ih5⟩ := ihS
    refine ⟨?_, ?_, ?_, ?_, ?_⟩
    · rw [ih1]
      congr 1
      push_cast [List.length_cons]
      ring
    · intro q
      rw [ih2 q]
      by_cases hq : q = st.phase
      · rw [hq, rowOf_upd_self, bump_actual, hrowst st.phase]
      · rw [rowOf_upd_ne st _ tbl _ q hq, hrowst q]
    · rw [ih3, rowOf_upd_self, bump_interruption, hrowst st.phase]
      rw [List.count_cons]
      push_cast
      cases b <;> simp [add_comm, add_assoc, add_left_comm]
    · rw [ih4, rowOf_upd_self, bump_off_task, hrowst st.phase]
      rw [List.count_cons]
      push_cast
      cases b <;> simp [add_comm, add_assoc, add_left_comm]
    · intro q hq
      rw [ih5 q hq, rowOf_upd_ne st _ tbl _ q hq, hrowst q]

/-- C3 counterexample: in a concrete Interrupted state, a single tick whose
activity probe reports inactive increments the current phase's off_task
counter from 0 to 1 (and leaves the per-phase interruption counter at 0), so
the counters the claim requires unchanged do change. -/
theorem c3_counterexample :
    tick0.psp_interruption = some 0 ∧
    (rowOf tick0 "code").off_task = 0 ∧
    (rowOf (TimerHandler tick0 false) "code").off_task = 1 ∧
    (rowOf (TimerHandler tick0 false) "code").interruption = 0 := by
  refine ⟨rfl, by with_unfolding_all rfl, by with_unfolding_all rfl,
    by with_unfolding_all rfl⟩

/-- Witness for C3 at a concrete interrupted state and probe sequence
[active, inactive]. -/
theorem c3_amended_witness :
    tick0.psp_interruption = some 0 ∧
    (ticks [true, false] tick0).psp_interruption
      = some (0 + (([true, false] : List Bool).length : Int)) ∧
    (rowOf (ticks [true, false] tick0) tick0.phase).interruption
      = (rowOf tick0 tick0.phase).interruption
        + ((([true, false] : List Bool).count true : Nat) : ℚ) ∧
    (rowOf (ticks [true, false] tick0) tick0.phase).off_task
      = (rowOf tick0 tick0.phase).off_task
        + ((([true, false] : List Bool).count false : Nat) : ℚ) := by
  have h := c3_amended [true, false] tick0 0 [] rfl (by norm_num) (by decide) rfl rfl rfl rfl
  exact ⟨rfl, h.1, h.2.2.1, h.2.2.2.1⟩

/-- C7 counterexample: after a manual start the automatic flag is false yet
the timer runs, and a tick still increments the current phase's actual
counter from 0 to 1 - the tick is not ignored. -/
theorem c7_counterexample :
    (OnStartPSP true base7).psp_automatic_stopwatch = false ∧
    (OnStartPSP true base7).timer_running = true ∧
    (rowOf (OnStartPSP true base7) "code").actual = 0 ∧
    (rowOf (TimerHandler (OnStartPSP true base7) true) "code").actual = 1 := by
  refine ⟨rfl, rfl, by with_unfolding_all rfl, by with_unfolding_all rfl⟩

/-- C7 (amended): the automatic flag does not gate ticks.  What it gates are
the probe-initiated PSPInterrupt and PSPResume, which are no-ops once
automatic tracking has been disabled; a manual stop leaves the timer stopped
(so no tick events are delivered at all); and TimerHandler's effect is
independent of the flag's value. -/
theorem c7_amended :
    (∀ (st : PspState) (msg : String), st.psp_automatic_stopwatch = false →
        PSPInterrupt msg st = st ∧ PSPResume msg st = st) ∧
    (∀ (st : PspState) (msg : String), (OnStopPSP true msg st).timer_running = false) ∧
    (∀ (st : PspState) (b x : Bool),
        TimerHandler { st with psp_automatic_stopwatch := x } b
          = { TimerHandler st b with psp_automatic_stopwatch := x }) := by
  refine ⟨?_, ?_, ?_⟩
  · intro st msg h
    constructor
    · unfold PSPInterrupt
      rw [if_pos (Or.inl h)]
    · unfold PSPResume
      rw [if_pos (Or.inl h)]
  · intro st msg
    unfold OnStopPSP
    by_cases hc : intTruthy st.psp_interruption = true
    · rw [if_pos (by simpa using hc)]
      unfold OnPausePSP
      have hne : st.psp_interruption ≠ none := by
        intro h0
        rw [h0] at hc
        simp [intTruthy] at hc
      rw [if_pos (by simpa using hne)]
      unfold PSPResume
      rw [if_pos (Or.inl (by simp))]
    · rw [if_neg (by simpa using hc)]
  · intro st b x
    cases st with
    | mk pi auto tr tid ts ex ph tm dft tt lg =>
      cases pi <;> cases tm <;> dsimp only [TimerHandler, tableCount] <;>
        split_ifs <;> rfl

/-- Witness for C7 at the concrete manually-started state. -/
theorem c7_amended_witness :
    (OnStartPSP true base7).psp_automatic_stopwatch = false ∧
    PSPInterrupt "call" (OnStartPSP true base7) = OnStartPSP true base7 ∧
    PSPResume "call" (OnStartPSP true base7) = OnStartPSP true base7 ∧
    (OnStopPSP true "call" base7).timer_running = false :=
  ⟨rfl, (c7_amended.1 (OnStartPSP true base7) "call" rfl).1,
    (c7_amended.1 (OnStartPSP true base7) "call" rfl).2,
    c7_amended.2.1 base7 "call"⟩

/-- C6 (amended): the provenance rebuild surfaces a read failure (missing
file at os.stat, or unreadable file at open) to its caller, as the claim
says; but NotifyDefect does not fall back on that failure - it propagates
the error and the defect creation aborts.  The empty/unknown injection phase
fallback applies only when no filename is given (or the name is empty, a
pseudo-file starting with <, or the line number is 0). -/
theorem c6_amended_thm :
    (∀ diffFn (fs : FileSys) (env : MetaEnv) (phase f : String),
      fs.mtime f = none →
        update_metadata diffFn fs env phase f = Except.error ()) ∧
    (∀ diffFn (fs : FileSys) (env : MetaEnv) (phase f : String) (ts : ℚ),
      fs.mtime f = some ts → env.cache f = none → fs.lines f = none →
        update_metadata diffFn fs env phase f = Except.error ()) ∧
    (∀ diffFn (fs : FileSys) (env : MetaEnv) (st : DefectListState)
        (fresh phase summary dtype : String) (f : String) (lineno offset : Nat)
        (description today : String),
      f ≠ "" → lineno ≠ 0 → f.startsWith "<" = false →
      update_metadata diffFn fs env phase f = Except.error () →
        NotifyDefect diffFn fs env st fresh phase summary dtype (some f)
          lineno offset description today = Except.error ()) ∧
    (∀ diffFn (fs : FileSys) (env : MetaEnv) (st : DefectListState)
        (fresh phase summary dtype : String) (lineno offset : Nat)
        (description today : String),
      NotifyDefect diffFn fs env st fresh phase summary dtype none
          lineno offset description today
        = Except.ok ((AddItem fresh st
            (notifyItem summary dtype none lineno offset description today "")
            none).1, env)) := by
  refine ⟨?_, ?_, ?_, ?_⟩
  · intro diffFn fs env phase f h
    unfold update_metadata
    rw [h]
  · intro diffFn fs env phase f ts h1 h2 h3
    unfold update_metadata
    rw [h1]
    dsimp only
    rw [h2]
    dsimp only
    rw [h3]
  · intro diffFn fs env st fresh phase summary dtype f lineno offset description today
      hf hl hp hupd
    unfold NotifyDefect
    dsimp only
    rw [if_pos ⟨hf, hl, hp⟩, hupd]
  · intro diffFn fs env st fresh phase summary dtype lineno offset description today
    rfl

/-- C6 counterexample: with a task selected and a concrete missing file,
NotifyDefect raises (returns an error) instead of creating the defect with an
empty injection phase. -/
theorem c6_counterexample :
    sampleSt.data = some [("u1", sampleStored)] ∧
    NotifyDefect noDiff noFs emptyEnv sampleSt "u9" "code" "oops" "20" (some "a.py") 10 0
      "" "2026-10-12" = Except.error () := by
  constructor
  · rfl
  · with_unfolding_all rfl

/-- Witness for C6 on the missing-file system and the no-filename
fallback. -/
theorem c6_amended_witness :
    noFs.mtime "a.py" = none ∧
    update_metadata noDiff noFs emptyEnv "code" "a.py" = Except.error () ∧
    NotifyDefect noDiff noFs emptyEnv sampleSt "u9" "code" "oops" "20" (some "a.py") 10 0
      "" "2026-10-12" = Except.error () ∧
    NotifyDefect noDiff noFs emptyEnv sampleSt "u9" "code" "oops" "20" none 10 0
      "" "2026-10-12"
      = Except.ok ((AddItem "u9" sampleSt
          (notifyItem "oops" "20" none 10 0 "" "2026-10-12" "") none).1, emptyEnv) := by
  have h1 := c6_amended_thm.1 noDiff noFs emptyEnv "code" "a.py" rfl
  refine ⟨rfl, h1, ?_, ?_⟩
  · exact c6_amended_thm.2.2.1 noDiff noFs emptyEnv sampleSt "u9" "code" "oops" "20"
      "a.py" 10 0 "" "2026-10-12" (by decide) (by decide)
      (by with_unfolding_all rfl) h1
  · exact c6_amended_thm.2.2.2 noDiff noFs emptyEnv sampleSt "u9" "code" "oops" "20"
      10 0 "" "2026-10-12"
